import Mathlib

/-!
Verification of the quantitative pricing engine
(`src/quantitative-pricing-engine.py`).

The Python class hierarchy `Position → {Stock, Derivative → Option}` is
embedded as a closed sum type `Position` over three record types holding
exactly the fields the source constructors set.  Floating-point numbers are
modelled by `ℝ`; `math.erf` is modelled by the Gaussian error-function
integral it approximates.  Python's built-in `Option` name clashes with
Lean's `Option`, so the option-contract record is called `OptionPos`.
-/

/-- `Stock(ticker, quantity, market_price, pays_dividends)`. -/
structure Stock where
  ticker : String
  quantity : ℝ
  market_price : ℝ
  pays_dividends : Bool

/-- `Derivative(ticker, quantity, market_price, expiration_date, multiplier)`. -/
structure Derivative where
  ticker : String
  quantity : ℝ
  market_price : ℝ
  expiration_date : String
  multiplier : ℝ

/-- `Option(ticker, quantity, market_price, expiration_date, multiplier,
strike_price, option_type)`; named `OptionPos` because `Option` is taken by
Lean's core library. -/
structure OptionPos where
  ticker : String
  quantity : ℝ
  market_price : ℝ
  expiration_date : String
  multiplier : ℝ
  strike_price : ℝ
  option_type : String

/-- The abstract `Position` base class, as a closed sum of its variants. -/
inductive Position where
  | stock : Stock → Position
  | derivative : Derivative → Position
  | option : OptionPos → Position

/-- The `market_price` attribute common to every `Position`. -/
noncomputable def Position.market_price : Position → ℝ
  | .stock s => s.market_price
  | .derivative d => d.market_price
  | .option o => o.market_price

/-- Polymorphic `calculate_current_value`:
`Stock` returns `quantity * market_price`;
`Derivative` and `Option` return `quantity * market_price * multiplier`. -/
noncomputable def Position.calculate_current_value : Position → ℝ
  | .stock s => s.quantity * s.market_price
  | .derivative d => d.quantity * d.market_price * d.multiplier
  | .option o => o.quantity * o.market_price * o.multiplier

/-- `math.erf`, the Gaussian error function the Python code calls:
`erf x = (2/√π) ∫ t in 0..x, exp (-t²)`. -/
noncomputable def erf (x : ℝ) : ℝ :=
  2 / Real.sqrt Real.pi * ∫ t in (0:ℝ)..x, Real.exp (-t ^ 2)

/-- The local helper `N` of `theoretical_value_bs`:
`N(x) = (1.0 + math.erf(x / math.sqrt(2.0))) / 2.0`. -/
noncomputable def N (x : ℝ) : ℝ :=
  (1 + erf (x / Real.sqrt 2)) / 2

/-- `Option.theoretical_value_bs(risk_free_rate, volatility, time_to_maturity)`
transcribed line by line from the source. -/
noncomputable def OptionPos.theoretical_value_bs (self : OptionPos)
    (risk_free_rate volatility time_to_maturity : ℝ) : ℝ :=
  let S := self.market_price
  let K := self.strike_price
  let r := risk_free_rate
  let sigma := volatility
  let T := time_to_maturity
  if T ≤ 0 then
    if self.option_type = "Call" then max 0 (S - K) else max 0 (K - S)
  else
    let d1 := (Real.log (S / K) + (r + 0.5 * sigma ^ 2) * T) / (sigma * Real.sqrt T)
    let d2 := d1 - sigma * Real.sqrt T
    let theoretical_price :=
      if self.option_type = "Call" then
        S * N d1 - K * Real.exp (-r * T) * N d2
      else if self.option_type = "Put" then
        K * Real.exp (-r * T) * N (-d2) - S * N (-d1)
      else (0.0 : ℝ)
    theoretical_price * self.multiplier

/-- The `Portfolio` container: an insertion-ordered list of positions. -/
structure Portfolio where
  positions : List Position

/-- `Portfolio.total_valuation`: `sum(p.calculate_current_value() for p in
self.positions)`, i.e. a left fold starting from `0` in insertion order. -/
noncomputable def Portfolio.total_valuation (p : Portfolio) : ℝ :=
  p.positions.foldl (fun acc q => acc + q.calculate_current_value) 0

/-- `Portfolio.average_market_price`: `0.0` on an empty list, otherwise the
sum of `market_price` over positions divided by their count. -/
noncomputable def Portfolio.average_market_price (p : Portfolio) : ℝ :=
  if p.positions.isEmpty then 0.0
  else (p.positions.foldl (fun acc q => acc + q.market_price) 0) / p.positions.length

/-- Whether a position is an Option with `option_type == "Call"`. -/
def isCallOption : Position → Bool
  | .option o => o.option_type == "Call"
  | _ => false

/-- Whether a position is an Option with `option_type == "Put"`. -/
def isPutOption : Position → Bool
  | .option o => o.option_type == "Put"
  | _ => false

/-- The loop body of `Portfolio.has_straddle_strategy`: walks the position
list carrying the `has_call` / `has_put` flags, returns `true` as soon as
both flags hold after processing a position, and `false` after the loop. -/
def straddleLoop : List Position → Bool → Bool → Bool
  | [], _, _ => false
  | q :: rest, has_call, has_put =>
    let hc := has_call || isCallOption q
    let hp := has_put || isPutOption q
    if hc && hp then true else straddleLoop rest hc hp

/-- `Portfolio.has_straddle_strategy`: runs the loop with both flags
initially `False`. -/
def Portfolio.has_straddle_strategy (p : Portfolio) : Bool :=
  straddleLoop p.positions false false

/-- `ClientAccount(iban, cash_balance)` with an optional portfolio,
initially `None`, set by `assign_portfolio`. -/
structure ClientAccount where
  iban : String
  cash_balance : ℝ
  portfolio : Option Portfolio

/-- `ClientAccount.calculate_net_worth`: starts from `cash_balance` and adds
`portfolio.total_valuation()` when a portfolio is assigned (a `Portfolio`
object is always truthy in Python). -/
noncomputable def ClientAccount.calculate_net_worth (c : ClientAccount) : ℝ :=
  match c.portfolio with
  | none => c.cash_balance
  | some p => c.cash_balance + p.total_valuation

/-!  Helper lemmas shared by several claims. -/

/-- A left fold accumulating `f` over a list equals the starting value plus
the sum of the mapped list. -/
theorem foldl_add_map (f : Position → ℝ) (l : List Position) (c : ℝ) :
    l.foldl (fun acc q => acc + f q) c = c + (l.map f).sum := by
  induction l generalizing c with
  | nil => simp
  | cons q rest ih => simp [List.foldl_cons, ih]; ring

/-- C2: with `time_to_maturity T ≤ 0`, `theoretical_value_bs` returns the
intrinsic value `max 0 (S − K)` for a Call and `max 0 (K − S)` for a Put,
with the multiplier not applied (the result does not involve `multiplier`). -/
theorem bs_expired_intrinsic (o : OptionPos) (r sigma T : ℝ) (hT : T ≤ 0) :
    (o.option_type = "Call" →
      o.theoretical_value_bs r sigma T = max 0 (o.market_price - o.strike_price)) ∧
    (o.option_type = "Put" →
      o.theoretical_value_bs r sigma T = max 0 (o.strike_price - o.market_price)) := by
  unfold OptionPos.theoretical_value_bs
  simp only [if_pos hT]
  constructor
  · intro h; simp [h]
  · intro h; rw [if_neg]; simp [h]

/-- Witness for C2 at a concrete Call option with `T = 0`. -/
theorem bs_expired_intrinsic_witness :
    (OptionPos.mk "T" 1 5 "E" 100 3 "Call").theoretical_value_bs 0 1 0
      = max 0 ((5:ℝ) - 3) :=
  (bs_expired_intrinsic (OptionPos.mk "T" 1 5 "E" 100 3 "Call") 0 1 0 le_rfl).1 rfl

/-- C10: with `T ≤ 0` and `option_type ≠ "Call"` (including unknown types),
`theoretical_value_bs` returns the Put intrinsic value `max 0 (K − S)`,
not the 0.0 unknown-type fallback. -/
theorem bs_expired_non_call (o : OptionPos) (r sigma T : ℝ) (hT : T ≤ 0)
    (hnc : o.option_type ≠ "Call") :
    o.theoretical_value_bs r sigma T = max 0 (o.strike_price - o.market_price) := by
  unfold OptionPos.theoretical_value_bs
  simp only [if_pos hT]
  rw [if_neg hnc]

/-- Witness for C10 at a concrete option with unknown type and `T = 0`. -/
theorem bs_expired_non_call_witness :
    (OptionPos.mk "T" 1 2 "E" 100 9 "Exotic").theoretical_value_bs 0 1 0
      = max 0 ((9:ℝ) - 2) :=
  bs_expired_non_call (OptionPos.mk "T" 1 2 "E" 100 9 "Exotic") 0 1 0 le_rfl
    (by decide)

/-- C3: with `T > 0` and an `option_type` that is neither "Call" nor "Put",
`theoretical_value_bs` returns 0 (`0.0` step-4 price times the multiplier). -/
theorem bs_unknown_type_zero (o : OptionPos) (r sigma T : ℝ) (hT : 0 < T)
    (hnc : o.option_type ≠ "Call") (hnp : o.option_type ≠ "Put") :
    o.theoretical_value_bs r sigma T = 0 := by
  unfold OptionPos.theoretical_value_bs
  simp only [if_neg (not_le.mpr hT), if_neg hnc, if_neg hnp]
  norm_num

/-- Witness for C3 at a concrete option of unknown type with `T = 1`. -/
theorem bs_unknown_type_zero_witness :
    (OptionPos.mk "T" 1 2 "E" 100 9 "Exotic").theoretical_value_bs 0 1 1 = 0 :=
  bs_unknown_type_zero (OptionPos.mk "T" 1 2 "E" 100 9 "Exotic") 0 1 1 one_pos
    (by decide) (by decide)

/-- C8: `calculate_current_value` is `q*p*m` for Derivative and Option
positions and `q*p` for Stock positions, a pure function of the fields. -/
theorem current_value_formulas (s : Stock) (d : Derivative) (o : OptionPos) :
    (Position.stock s).calculate_current_value = s.quantity * s.market_price ∧
    (Position.derivative d).calculate_current_value
      = d.quantity * d.market_price * d.multiplier ∧
    (Position.option o).calculate_current_value
      = o.quantity * o.market_price * o.multiplier :=
  ⟨rfl, rfl, rfl⟩

/-- C7: `total_valuation` is the sum of `calculate_current_value` over the
positions in insertion order, and `0` on the empty portfolio. -/
theorem total_valuation_eq_sum (p : Portfolio) :
    p.total_valuation = (p.positions.map Position.calculate_current_value).sum ∧
    (Portfolio.mk []).total_valuation = 0 := by
  constructor
  · unfold Portfolio.total_valuation
    rw [foldl_add_map]; ring
  · rfl

/-- C9: `average_market_price` is the arithmetic mean of the per-unit
`market_price` values, and `0.0` on an empty portfolio. -/
theorem average_market_price_spec (p : Portfolio) :
    (p.positions = [] → p.average_market_price = 0) ∧
    (p.positions ≠ [] → p.average_market_price
      = (p.positions.map Position.market_price).sum / (p.positions.length : ℝ)) := by
  constructor
  · intro h
    unfold Portfolio.average_market_price
    rw [if_pos (List.isEmpty_iff.mpr h)]
    norm_num
  · intro h
    unfold Portfolio.average_market_price
    rw [if_neg (by simpa [List.isEmpty_iff] using h), foldl_add_map]
    ring_nf

/-- Witness for C9 at a one-stock portfolio and at the empty portfolio. -/
theorem average_market_price_spec_witness :
    (Portfolio.mk []).average_market_price = 0 ∧
    (Portfolio.mk [Position.stock (Stock.mk "S" 1 7 true)]).average_market_price
      = ([Position.stock (Stock.mk "S" 1 7 true)].map Position.market_price).sum
        / ((1:ℕ) : ℝ) :=
  ⟨(average_market_price_spec (Portfolio.mk [])).1 rfl,
   (average_market_price_spec
      (Portfolio.mk [Position.stock (Stock.mk "S" 1 7 true)])).2 (by simp)⟩

/-- C6: `calculate_net_worth` is `cash_balance` plus the portfolio's
`total_valuation` when one is assigned, and exactly `cash_balance` when
none is assigned. -/
theorem net_worth_cash_plus_portfolio (c : ClientAccount) :
    (∀ p, c.portfolio = some p →
      c.calculate_net_worth = c.cash_balance + p.total_valuation) ∧
    (c.portfolio = none → c.calculate_net_worth = c.cash_balance) := by
  constructor
  · intro p hp
    unfold ClientAccount.calculate_net_worth
    rw [hp]
  · intro hp
    unfold ClientAccount.calculate_net_worth
    rw [hp]

/-- Witness for C6 at an account with no portfolio and one with a
portfolio. -/
theorem net_worth_cash_plus_portfolio_witness :
    (ClientAccount.mk "A" 5 none).calculate_net_worth = 5 ∧
    (ClientAccount.mk "B" 5 (some (Portfolio.mk []))).calculate_net_worth
      = 5 + (Portfolio.mk []).total_valuation :=
  ⟨(net_worth_cash_plus_portfolio (ClientAccount.mk "A" 5 none)).2 rfl,
   (net_worth_cash_plus_portfolio (ClientAccount.mk "B" 5 (some (Portfolio.mk [])))).1
      (Portfolio.mk []) rfl⟩

/-- `isCallOption` holds exactly on Option positions whose type is "Call". -/
theorem isCallOption_eq_true (x : Position) :
    isCallOption x = true ↔ ∃ o, x = Position.option o ∧ o.option_type = "Call" := by
  cases x <;> simp [isCallOption]

/-- `isPutOption` holds exactly on Option positions whose type is "Put". -/
theorem isPutOption_eq_true (x : Position) :
    isPutOption x = true ↔ ∃ o, x = Position.option o ∧ o.option_type = "Put" := by
  cases x <;> simp [isPutOption]

/-- Loop invariant for `straddleLoop`: as long as the flags are not already
both set, the loop computes whether each flag eventually becomes set. -/
theorem straddleLoop_eq (l : List Position) (hc hp : Bool)
    (h : ¬(hc = true ∧ hp = true)) :
    straddleLoop l hc hp = ((hc || l.any isCallOption) && (hp || l.any isPutOption)) := by
  induction l generalizing hc hp with
  | nil => cases hc <;> cases hp <;> simp_all [straddleLoop]
  | cons q rest ih =>
    show (if ((hc || isCallOption q) && (hp || isPutOption q)) = true then true
          else straddleLoop rest (hc || isCallOption q) (hp || isPutOption q)) = _
    by_cases hb : ((hc || isCallOption q) && (hp || isPutOption q)) = true
    · rw [if_pos hb]
      simp only [Bool.and_eq_true] at hb
      obtain ⟨h1, h2⟩ := hb
      simp only [List.any_cons, ← Bool.or_assoc, h1, h2, Bool.true_or,
        Bool.true_and]
    · rw [if_neg hb]
      rw [ih _ _ (by simpa [Bool.and_eq_true] using hb)]
      simp [List.any_cons, Bool.or_assoc]

/-- C5: `has_straddle_strategy` is true iff the portfolio holds at least one
Option with type "Call" and at least one Option with type "Put". -/
theorem has_straddle_iff_call_and_put (p : Portfolio) :
    p.has_straddle_strategy = true ↔
      ((∃ o : OptionPos, Position.option o ∈ p.positions ∧ o.option_type = "Call") ∧
       (∃ o : OptionPos, Position.option o ∈ p.positions ∧ o.option_type = "Put")) := by
  unfold Portfolio.has_straddle_strategy
  rw [straddleLoop_eq _ false false (by simp)]
  simp only [Bool.false_or, Bool.and_eq_true, List.any_eq_true,
    isCallOption_eq_true, isPutOption_eq_true]
  constructor
  · rintro ⟨⟨x, hx, o, rfl, ho⟩, ⟨y, hy, u, rfl, hu⟩⟩
    exact ⟨⟨o, hx, ho⟩, ⟨u, hy, hu⟩⟩
  · rintro ⟨⟨o, ho, hoc⟩, ⟨u, hu, hup⟩⟩
    exact ⟨⟨_, ho, o, rfl, hoc⟩, ⟨_, hu, u, rfl, hup⟩⟩

/-!  Spec-side Black-Scholes quantities, stated from the spec's formulas to be
compared against `OptionPos.theoretical_value_bs`. -/

/-- The spec's step-2 quantity `d1 = (ln(S/K) + (r + σ²/2)·T) / (σ·√T)`. -/
noncomputable def bs_d1 (S K r sigma T : ℝ) : ℝ :=
  (Real.log (S / K) + (r + sigma ^ 2 / 2) * T) / (sigma * Real.sqrt T)

/-- The spec's `d2 = d1 − σ·√T`. -/
noncomputable def bs_d2 (S K r sigma T : ℝ) : ℝ :=
  bs_d1 S K r sigma T - sigma * Real.sqrt T

/-- The spec's step-4 Call price `S·N(d1) − K·e^(−rT)·N(d2)`. -/
noncomputable def bs_call_price (S K r sigma T : ℝ) : ℝ :=
  S * N (bs_d1 S K r sigma T) - K * Real.exp (-r * T) * N (bs_d2 S K r sigma T)

/-- The spec's step-4 Put price `K·e^(−rT)·N(−d2) − S·N(−d1)`. -/
noncomputable def bs_put_price (S K r sigma T : ℝ) : ℝ :=
  K * Real.exp (-r * T) * N (-bs_d2 S K r sigma T) - S * N (-bs_d1 S K r sigma T)

/-- The Gaussian integral from `0` is an odd function of its endpoint. -/
theorem gauss_integral_neg (x : ℝ) :
    (∫ t in (0:ℝ)..(-x), Real.exp (-t ^ 2))
      = -∫ t in (0:ℝ)..x, Real.exp (-t ^ 2) := by
  have h1 : (∫ t in (0:ℝ)..x, Real.exp (-(-t) ^ 2))
      = ∫ t in (-x)..(-0:ℝ), Real.exp (-t ^ 2) :=
    intervalIntegral.integral_comp_neg fun t => Real.exp (-t ^ 2)
  simp only [neg_sq, neg_zero] at h1
  calc (∫ t in (0:ℝ)..(-x), Real.exp (-t ^ 2))
      = -∫ t in (-x)..(0:ℝ), Real.exp (-t ^ 2) :=
        intervalIntegral.integral_symm (-x) 0
    _ = -∫ t in (0:ℝ)..x, Real.exp (-t ^ 2) := by rw [← h1]

/-- The error function is odd. -/
theorem erf_neg (x : ℝ) : erf (-x) = -erf x := by
  unfold erf
  rw [gauss_integral_neg, mul_neg]

/-- Reflection identity for the modelled normal CDF: `N(−x) = 1 − N(x)`. -/
theorem N_neg (x : ℝ) : N (-x) = 1 - N x := by
  unfold N
  rw [neg_div, erf_neg]
  ring

/-- C1: with `S > 0`, `K > 0`, `σ > 0`, `T > 0`, `theoretical_value_bs`
returns the multiplier times the spec's step-4 price for Call and Put. -/
theorem bs_step4_price_scaled (o : OptionPos) (r sigma T : ℝ)
    (hS : 0 < o.market_price) (hK : 0 < o.strike_price)
    (hsig : 0 < sigma) (hT : 0 < T) :
    (o.option_type = "Call" →
      o.theoretical_value_bs r sigma T
        = o.multiplier * bs_call_price o.market_price o.strike_price r sigma T) ∧
    (o.option_type = "Put" →
      o.theoretical_value_bs r sigma T
        = o.multiplier * bs_put_price o.market_price o.strike_price r sigma T) := by
  unfold OptionPos.theoretical_value_bs
  simp only [if_neg (not_le.mpr hT)]
  have hd1 : (Real.log (o.market_price / o.strike_price) + (r + 0.5 * sigma ^ 2) * T)
      / (sigma * Real.sqrt T) = bs_d1 o.market_price o.strike_price r sigma T := by
    unfold bs_d1; ring_nf
  constructor
  · intro h
    rw [if_pos h, hd1]
    unfold bs_call_price bs_d2
    ring
  · intro h
    rw [if_neg (by simp [h]), if_pos h, hd1]
    unfold bs_put_price bs_d2
    ring

/-- Witness for C1 at a concrete Call option with multiplier 2. -/
theorem bs_step4_price_scaled_witness :
    (OptionPos.mk "T" 1 1 "E" 2 1 "Call").theoretical_value_bs 0 1 1
      = 2 * bs_call_price 1 1 0 1 1 :=
  (bs_step4_price_scaled (OptionPos.mk "T" 1 1 "E" 2 1 "Call") 0 1 1
      one_pos one_pos one_pos one_pos).1 rfl

/-- C4: Call-Put parity with multiplier 1: for `S, K, σ, T > 0`, the Call
value minus the Put value equals `S − K·e^(−rT)` exactly (hence within any
numerical tolerance). -/
theorem bs_call_put_parity (tk ex : String) (q S K r sigma T : ℝ)
    (hS : 0 < S) (hK : 0 < K) (hsig : 0 < sigma) (hT : 0 < T) :
    (OptionPos.mk tk q S ex 1 K "Call").theoretical_value_bs r sigma T
      - (OptionPos.mk tk q S ex 1 K "Put").theoretical_value_bs r sigma T
      = S - K * Real.exp (-r * T) := by
  unfold OptionPos.theoretical_value_bs
  simp only [if_neg (not_le.mpr hT), String.reduceEq, reduceIte]
  rw [N_neg, N_neg]
  ring

/-- Witness for C4 at `S = K = σ = T = 1`, `r = 0`. -/
theorem bs_call_put_parity_witness :
    (OptionPos.mk "T" 1 1 "E" 1 1 "Call").theoretical_value_bs 0 1 1
      - (OptionPos.mk "T" 1 1 "E" 1 1 "Put").theoretical_value_bs 0 1 1
      = 1 - 1 * Real.exp (-0 * 1) :=
  bs_call_put_parity "T" "E" 1 1 1 0 1 1 one_pos one_pos one_pos one_pos
